import Mathlib

set_option maxHeartbeats 1000000

/-
  Verification development for the BleedingEdge container-update manager.

  The Go sources are shallowly embedded: Go strings become lists of
  characters, Go maps become association lists (with `Option` marking a
  possibly-nil map), fallible calls return `Except`, and the concurrent
  update-detection pass is modelled as an explicit interleaving of atomic
  task steps (the atomic units are exactly the lock-protected regions of
  the source).
-/

namespace BleedingEdge

/-- Go strings are modelled as lists of characters. -/
abbrev Str := List Char

/-- Convert a Lean string literal to the `Str` model. -/
def str (s : String) : Str := s.toList

/-- Go `strings.HasPrefix(s, pre)`. -/
def startsWith (s pre : Str) : Bool := List.isPrefixOf pre s

/-- Go `strings.TrimPrefix(s, pre)`: removes `pre` once if present. -/
def trimPrefixOf (pre s : Str) : Str :=
  if List.isPrefixOf pre s then s.drop pre.length else s

/-- Go `strings.Contains(s, c)` for a single-character needle. -/
def containsChar (s : Str) (c : Char) : Bool := decide (c ∈ s)

/-- Go `strings.Split(s, sep)` for a single-character separator. -/
def splitOnChar (sep : Char) : Str → List Str
  | [] => [[]]
  | c :: cs =>
    if c = sep then [] :: splitOnChar sep cs
    else
      match splitOnChar sep cs with
      | [] => [[c]]
      | h :: t => (c :: h) :: t

/-- Go `strings.SplitN(s, sep, 2)` for a single-character separator:
the part before the first separator and the remainder, or the whole
string when the separator does not occur. -/
def splitN2 (sep : Char) (s : Str) : List Str :=
  if sep ∈ s then [s.takeWhile (· ≠ sep), (s.dropWhile (· ≠ sep)).tail] else [s]

/-- Association-list lookup, modelling `v, ok := m[k]` on a Go map. -/
def lookupStr {α : Type} (m : List (Str × α)) (k : Str) : Option α :=
  match m with
  | [] => none
  | (k', v) :: rest => if k' = k then some v else lookupStr rest k

/-- Association-list insert/overwrite, modelling `m[k] = v` on a Go map. -/
def insertStr {α : Type} (m : List (Str × α)) (k : Str) (v : α) : List (Str × α) :=
  match m with
  | [] => [(k, v)]
  | (k', v') :: rest => if k' = k then (k, v) :: rest else (k', v') :: insertStr rest k v

/-- The trailing rule of `isLocalImage` (the code after the registry-
domain early return): split on `:`, take the base name and report a
local compose-style image when it has no slash but a hyphen or an
underscore. -/
def localNameHeuristic (imageName : Str) : Bool :=
  let baseName := (splitOnChar ':' imageName).headD []
  !containsChar baseName '/' && (containsChar baseName '-' || containsChar baseName '_')

/-- The registry-domain test of `isLocalImage`: when `SplitN` produced
more than one part and the first part carries a dot or colon the image
is registry-sourced (`false`); otherwise the base-name rule decides. -/
def registryHostRule (parts : List Str) (imageName : Str) : Bool :=
  match parts with
  | firstPart :: _ :: _ =>
    if containsChar firstPart '.' || containsChar firstPart ':' then false
    else localNameHeuristic imageName
  | _ => localNameHeuristic imageName

/-- Function `isLocalImage` from `internal/services/container.go`: heuristic
classification of an image reference as locally built (not checkable
against a registry). Translated statement for statement from the
source; the `len(parts) > 1` test becomes a match on the result of
`SplitN(imageName, "/", 2)`. -/
def isLocalImage (imageName : Str) : Bool :=
  if startsWith imageName (str "sha256:") then true
  else if startsWith imageName (str "localhost/") || startsWith imageName (str "localhost:") then
    true
  else registryHostRule (splitN2 '/' imageName) imageName

/-- First path component of an image reference (the registry-host
candidate): the characters before the first slash. -/
def firstPathComponent (r : Str) : Str := r.takeWhile (· ≠ '/')

/-- Base name of an image reference as the claim's words describe it:
the last path component with any tag (text from the first colon on)
stripped. -/
def claimBaseName (r : Str) : Str :=
  ((splitOnChar '/' r).getLastD []).takeWhile (· ≠ ':')

/-- The local-image classification rule exactly as claim C8 states it:
raw digest reference, or localhost-hosted, or — no explicit registry
host segment (no dot or colon in the first path component) — a base
name containing a hyphen or underscore. -/
def claimLocalImage (r : Str) : Bool :=
  startsWith r (str "sha256:") ||
  startsWith r (str "localhost/") || startsWith r (str "localhost:") ||
  (!(containsChar r '/' && (containsChar (firstPathComponent r) '.' || containsChar (firstPathComponent r) ':')) &&
    (containsChar (claimBaseName r) '-' || containsChar (claimBaseName r) '_'))

/-- The amended local-image classification rule: as claim C8, but the
hyphen/underscore case additionally requires the reference to contain
no slash at all (a single path component), which is what the source's
`!strings.Contains(baseName, "/")` guard enforces. -/
def amendedLocalImage (r : Str) : Bool :=
  startsWith r (str "sha256:") ||
  startsWith r (str "localhost/") || startsWith r (str "localhost:") ||
  (!containsChar r '/' && (containsChar (claimBaseName r) '-' || containsChar (claimBaseName r) '_'))

/-! Data model from `internal/models/container.go`. -/

/-- Type `GroupType`: a group is a compose project or a standalone container. -/
inductive GroupType
  | compose
  | standalone
deriving DecidableEq

/-- Type `models.ContainerInfo`: one container as observed by discovery. -/
structure ContainerInfo where
  id : Str
  name : Str
  image : Str
  imageDigest : Str
  latestDigest : Str
  state : Str
  hasUpdate : Bool
  labels : Option (List (Str × Str))
deriving DecidableEq

/-- Type `models.ContainerGroup`: a compose project or a standalone unit. -/
structure ContainerGroup where
  id : Str
  name : Str
  type : GroupType
  containers : List ContainerInfo
  workingDir : Str
  hasUpdates : Bool
  allRunning : Bool
deriving DecidableEq

/-- Type `types.Container` as used by the grouping service: identifier,
name list, image reference, lifecycle state and a possibly-nil label
map. -/
structure DContainer where
  id : Str
  names : List Str
  image : Str
  state : Str
  labels : Option (List (Str × Str))
deriving DecidableEq

/-! Grouping service from `internal/services/container.go`. -/

/-- Function `getContainerName`: first name with the leading slash stripped;
empty when the list is empty. -/
def getContainerName (names : List Str) : Str :=
  match names with
  | [] => []
  | name :: _ => trimPrefixOf (str "/") name

/-- The compose-membership test of `IsComposeProject`, on a label
map: true with the project name iff the map is non-nil and carries a
non-empty `com.docker.compose.project` value. -/
def composeProjectOf (labels : Option (List (Str × Str))) : Bool × Str :=
  match labels with
  | none => (false, [])
  | some m =>
    match lookupStr m (str "com.docker.compose.project") with
    | some projectName => if projectName = [] then (false, []) else (true, projectName)
    | none => (false, [])

/-- Function `IsComposeProject`: a container belongs to a compose project iff
its label map is non-nil and carries a non-empty
`com.docker.compose.project` value. Returns `(isCompose, projectName)`. -/
def isComposeProject (c : DContainer) : Bool × Str :=
  composeProjectOf c.labels

/-- The `ContainerInfo` value built for each listed container. -/
def toContainerInfo (c : DContainer) : ContainerInfo :=
  { id := c.id
    name := getContainerName c.names
    image := c.image
    imageDigest := []
    latestDigest := []
    state := c.state
    hasUpdate := false
    labels := c.labels }

/-- A Go map read without the `ok` flag (`m[k]`): empty string when the
map is nil or the key absent. -/
def lookupLabelD (labels : Option (List (Str × Str))) (key : Str) : Str :=
  match labels with
  | none => []
  | some m => (lookupStr m key).getD []

/-- Function `areAllContainersRunning`: false for an empty list, otherwise true
iff every member's state is `running`. -/
def areAllContainersRunning (containers : List ContainerInfo) : Bool :=
  if containers.isEmpty then false
  else containers.all (fun c => decide (c.state = str "running"))

/-- Append a container to its compose project's group, creating the
group (with the working directory read from the container's labels)
when the key is new. The association list preserves first-insertion
order, a deterministic refinement of Go's map iteration. -/
def insertComposeContainer (projectName : Str) (info : ContainerInfo) (workingDir : Str) :
    List (Str × ContainerGroup) → List (Str × ContainerGroup)
  | [] =>
    [(projectName,
      { id := projectName
        name := projectName
        type := .compose
        containers := [info]
        workingDir := workingDir
        hasUpdates := false
        allRunning := false })]
  | (k, g) :: rest =>
    if k = projectName then (k, { g with containers := g.containers ++ [info] }) :: rest
    else (k, g) :: insertComposeContainer projectName info workingDir rest

/-- One iteration of the grouping loop: route the container into its
compose project or append a fresh standalone group. -/
def processContainer (acc : List (Str × ContainerGroup) × List ContainerGroup) (c : DContainer) :
    List (Str × ContainerGroup) × List ContainerGroup :=
  let pr := isComposeProject c
  let info := toContainerInfo c
  if pr.1 then
    (insertComposeContainer pr.2 info
        (lookupLabelD c.labels (str "com.docker.compose.project.working_dir")) acc.1,
      acc.2)
  else
    (acc.1,
      acc.2 ++ [{ id := c.id
                  name := getContainerName c.names
                  type := .standalone
                  containers := [info]
                  workingDir := []
                  hasUpdates := false
                  allRunning := false }])

/-- All instance snapshots held by the two grouping accumulators, in
order: compose-project members first, then standalone members. -/
def accMembers (acc : List (Str × ContainerGroup) × List ContainerGroup) :
    List ContainerInfo :=
  acc.1.flatMap (fun p => p.2.containers) ++ acc.2.flatMap (fun g => g.containers)

/-- All instance snapshots held by a list of groups. -/
def groupMembers (gs : List ContainerGroup) : List ContainerInfo :=
  gs.flatMap fun g => g.containers

/-- Function `GetContainerGroups` on an already-listed set of containers:
partition into compose projects and standalone groups, then emit the
compose groups (with their all-running flag computed) followed by the
standalone groups. -/
def getContainerGroups (containers : List DContainer) : List ContainerGroup :=
  let acc := containers.foldl processContainer ([], [])
  (acc.1.map fun p => { p.2 with allRunning := areAllContainersRunning p.2.containers }) ++ acc.2

/-! Update detection from `internal/services/container.go`
(`CheckUpdates`) and `internal/docker/client.go` (`GetImageDigest`).
The per-container goroutines are modelled as tasks that advance by
atomic steps; an atomic step is exactly a lock-protected region or a
single runtime call of the source. A schedule (a list of task
indices) chooses the interleaving; `CheckUpdates` then drives every
task to completion, which models `wg.Wait()`. -/

/-- The image-inspection record used by `Client.GetImageDigest`: the
repository digests and the internal content identifier. -/
structure ImageInspect where
  repoDigests : List Str
  id : Str
deriving DecidableEq

/-- Function `Client.GetImageDigest` and its selection rule: the first repository
digest when one is recorded, otherwise the internal content id. -/
def getImageDigest (insp : ImageInspect) : Str :=
  match insp.repoDigests with
  | d :: _ => d
  | [] => insp.id

/-- The runtime client as the detection engine sees it. Call results
are indexed by the per-image call count (the repository's own tests
mock `GetImageDigest` statefully by exactly such a per-image counter),
so successive calls may observe different daemon states. `none`
models a call that returns an error. -/
structure CUClient where
  pullResult : Str → Nat → Bool
  imageInspect : Str → Nat → Option ImageInspect

/-- Runtime-call events recorded by the detection model. -/
inductive CUEvent
  | pullImage (img : Str)
  | resolveLatest (img : Str)
  | resolveCurrent (img : Str)
deriving DecidableEq

/-- State shared by all detection tasks: the per-cycle digest cache
(`imageDigests`), the per-image call counters and the event log. -/
structure Shared where
  cache : List (Str × Str)
  pullCalls : List (Str × Nat)
  digestCalls : List (Str × Nat)
  events : List CUEvent
deriving DecidableEq

/-- The empty shared state at the start of a detection cycle. -/
def initShared : Shared := ⟨[], [], [], []⟩

/-- Per-image call count. -/
def countOf (m : List (Str × Nat)) (k : Str) : Nat := (lookupStr m k).getD 0

/-- Increment a per-image call count. -/
def bumpCount (m : List (Str × Nat)) (k : Str) : List (Str × Nat) :=
  insertStr m k (countOf m k + 1)

/-- Control point of one detection task. `ready` is before the local
check and the locked cache read; `toPull`/`toResolve`/`toWrite` are
the cache-miss path (pull, latest-digest resolution, locked cache
write); `toCurrent` is the current-digest resolution carrying the
latest digest this task will compare against. -/
inductive TaskPhase
  | ready
  | toPull
  | toResolve
  | toWrite (digest : Str)
  | toCurrent (latest : Str)
  | done
deriving DecidableEq

/-- One detection task: the container being checked and its control
point. -/
structure Task where
  c : ContainerInfo
  phase : TaskPhase
deriving DecidableEq

/-- One atomic step of a detection task, straight from the goroutine
body of `CheckUpdates`: local-image skip, locked cache read, pull
(soft-fail), latest-digest resolution (soft-fail), locked cache
write, current-digest resolution and comparison. -/
def taskStep (client : CUClient) (sh : Shared) (t : Task) : Shared × Task :=
  match t.phase with
  | .ready =>
    if isLocalImage t.c.image then
      (sh, { t with c := { t.c with hasUpdate := false }, phase := .done })
    else
      match lookupStr sh.cache t.c.image with
      | some d => (sh, { t with phase := .toCurrent d })
      | none => (sh, { t with phase := .toPull })
  | .toPull =>
    let n := countOf sh.pullCalls t.c.image
    let sh' := { sh with pullCalls := bumpCount sh.pullCalls t.c.image,
                         events := sh.events ++ [.pullImage t.c.image] }
    if client.pullResult t.c.image n then (sh', { t with phase := .toResolve })
    else (sh', { t with c := { t.c with hasUpdate := false }, phase := .done })
  | .toResolve =>
    let n := countOf sh.digestCalls t.c.image
    let sh' := { sh with digestCalls := bumpCount sh.digestCalls t.c.image,
                         events := sh.events ++ [.resolveLatest t.c.image] }
    match client.imageInspect t.c.image n with
    | some insp => (sh', { t with phase := .toWrite (getImageDigest insp) })
    | none => (sh', { t with c := { t.c with hasUpdate := false }, phase := .done })
  | .toWrite digest =>
    ({ sh with cache := insertStr sh.cache t.c.image digest },
      { t with phase := .toCurrent digest })
  | .toCurrent latest =>
    let n := countOf sh.digestCalls t.c.image
    let sh' := { sh with digestCalls := bumpCount sh.digestCalls t.c.image,
                         events := sh.events ++ [.resolveCurrent t.c.image] }
    match client.imageInspect t.c.image n with
    | some insp =>
      let cur := getImageDigest insp
      let c' := { t.c with
                  imageDigest := cur
                  latestDigest := latest
                  hasUpdate := decide (cur ≠ latest) }
      (sh', { t with c := c', phase := .done })
    | none => (sh', { t with c := { t.c with hasUpdate := false }, phase := .done })
  | .done => (sh, t)

/-- One task step on a state-task pair. -/
def stepPair (client : CUClient) (p : Shared × Task) : Shared × Task :=
  taskStep client p.1 p.2

/-- Run a single task to completion (five steps always suffice and
steps on a finished task are no-ops). -/
def runTask (client : CUClient) (sh : Shared) (t : Task) : Shared × Task :=
  stepPair client (stepPair client (stepPair client (stepPair client (stepPair client (sh, t)))))

/-- Execute a schedule: each entry names the task that performs its
next atomic step (out-of-range entries are skipped). -/
def runSched (client : CUClient) : List Nat → Shared → List Task → Shared × List Task
  | [], sh, ts => (sh, ts)
  | i :: rest, sh, ts =>
    match ts.get? i with
    | some t =>
      let p := taskStep client sh t
      runSched client rest p.1 (ts.set i p.2)
    | none => runSched client rest sh ts

/-- Drive every task to completion in index order, modelling
`wg.Wait()`: the cycle does not return before each goroutine has run
all its remaining steps. -/
def finishTasks (client : CUClient) : Shared → List Task → Shared × List Task
  | sh, [] => (sh, [])
  | sh, t :: ts =>
    let p := runTask client sh t
    let q := finishTasks client p.1 ts
    (q.1, p.2 :: q.2)

/-- Restore the flat list of per-task container results into the
original group structure. -/
def rebuildGroups : List ContainerGroup → List ContainerInfo → List ContainerGroup
  | [], _ => []
  | g :: gs, cs =>
    { g with containers := cs.take g.containers.length } ::
      rebuildGroups gs (cs.drop g.containers.length)

/-- The per-group rollup after `wg.Wait()`: `HasUpdates` starts false
and is set whenever a member has an update; `AllRunning` is
recomputed. -/
def rollupGroup (g : ContainerGroup) : ContainerGroup :=
  { g with
    hasUpdates := g.containers.foldl (fun acc c => if c.hasUpdate then true else acc) false,
    allRunning := areAllContainersRunning g.containers }

/-- The rollup loop over all groups. -/
def rollupGroups (gs : List ContainerGroup) : List ContainerGroup := gs.map rollupGroup

/-- Function `CheckUpdates` under a chosen interleaving: spawn one task per
container (in group order), run the scheduled steps, wait for all
tasks to finish, then roll up the group flags. Returns the final
shared state (for the event log) and the annotated groups. -/
def checkUpdatesRun (client : CUClient) (sched : List Nat) (groups : List ContainerGroup) :
    Shared × List ContainerGroup :=
  let tasks := (groups.flatMap fun g => g.containers).map fun c => Task.mk c .ready
  let p := runSched client sched initShared tasks
  let q := finishTasks client p.1 p.2
  (q.1, rollupGroups (rebuildGroups groups (q.2.map fun t => t.c)))

/-- Function `CheckUpdates` as the caller sees it: the source's only `return`
is `return nil`, so the result is always `ok`. -/
def checkUpdates (client : CUClient) (sched : List Nat) (groups : List ContainerGroup) :
    Except Str (List ContainerGroup) :=
  Except.ok (checkUpdatesRun client sched groups).2

/-! Configuration extraction and update execution from the update
service (`ExtractContainerParams`, `UpdateStandaloneContainer`,
`UpdateComposeProject`). -/

/-- Type `nat.PortBinding`: host address and port of one binding. -/
structure PortBinding where
  hostIP : Str
  hostPort : Str
deriving DecidableEq

/-- Type `container.RestartPolicy`. -/
structure RestartPolicy where
  name : Str
  maximumRetryCount : Int
deriving DecidableEq

/-- Type `container.Resources` (the resource limits carried across the
recreate). -/
structure Resources where
  nanoCPUs : Int
  memory : Int
deriving DecidableEq

/-- Type `container.Config` of the inspection record, restricted to the
fields the extractor reads; nilable maps are `Option`. -/
structure ContainerConfig where
  image : Str
  env : List Str
  cmd : List Str
  entrypoint : List Str
  labels : Option (List (Str × Str))
  exposedPorts : Option (List Str)
deriving DecidableEq

/-- Type `container.HostConfig` of the inspection record, restricted to the
fields the extractor reads. -/
structure HostConfig where
  portBindings : Option (List (Str × List PortBinding))
  binds : Option (List Str)
  restartPolicy : RestartPolicy
  resources : Resources
deriving DecidableEq

/-- Type `NetworkSettings` of the inspection record: the attached network
names (a nilable map of which only the keys are read). -/
structure NetworkSettings where
  networks : Option (List Str)
deriving DecidableEq

/-- Type `types.ContainerJSON`: the inspection record. `Config` and
`HostConfig` are pointers in Go, hence `Option` here. -/
structure ContainerJSON where
  name : Str
  config : Option ContainerConfig
  hostConfig : Option HostConfig
  networkSettings : Option NetworkSettings
deriving DecidableEq

/-- Type `models.ContainerParams`: the recreate-capable snapshot. -/
structure ContainerParams where
  image : Str
  name : Str
  env : List Str
  cmd : List Str
  entrypoint : List Str
  portBindings : List (Str × List PortBinding)
  binds : List Str
  networks : List Str
  restartPolicy : RestartPolicy
  labels : Option (List (Str × Str))
  resources : Resources
deriving DecidableEq

/-- Function `ExtractContainerParams`: fails when `Config` or `HostConfig` is
nil; otherwise strips the name's leading slash and copies the
configuration, turning absent port bindings, binds and networks into
empty collections. -/
def extractContainerParams (containerJSON : ContainerJSON) : Except Str ContainerParams :=
  match containerJSON.config with
  | none => .error (str "container config is nil")
  | some config =>
    match containerJSON.hostConfig with
    | none => .error (str "container host config is nil")
    | some hostConfig =>
      let name := trimPrefixOf (str "/") containerJSON.name
      let portBindings :=
        match hostConfig.portBindings with
        | none => []
        | some m => m
      let binds :=
        match hostConfig.binds with
        | none => []
        | some bs => bs
      let networks :=
        match containerJSON.networkSettings with
        | none => []
        | some ns =>
          match ns.networks with
          | none => []
          | some ks => ks
      .ok { image := config.image
            name := name
            env := config.env
            cmd := config.cmd
            entrypoint := config.entrypoint
            portBindings := portBindings
            binds := binds
            networks := networks
            restartPolicy := hostConfig.restartPolicy
            labels := config.labels
            resources := hostConfig.resources }

/-- Type `container.Config` as assembled for `CreateContainer` (step 6 of
the standalone update): note there is no field for network names. -/
structure CreateConfig where
  image : Str
  env : List Str
  cmd : List Str
  entrypoint : List Str
  labels : Option (List (Str × Str))
  exposedPorts : List Str
deriving DecidableEq

/-- Type `container.HostConfig` as assembled for `CreateContainer`. -/
structure CreateHostConfig where
  portBindings : List (Str × List PortBinding)
  binds : List Str
  restartPolicy : RestartPolicy
  resources : Resources
deriving DecidableEq

/-- Step 6 of `UpdateStandaloneContainer`: the configuration passed to
`CreateContainer`, built from the snapshot with the exposed ports
recomputed from the port-binding keys. The snapshot's network names
are not consulted. -/
def buildCreateArgs (params : ContainerParams) : CreateConfig × CreateHostConfig :=
  ({ image := params.image
     env := params.env
     cmd := params.cmd
     entrypoint := params.entrypoint
     labels := params.labels
     exposedPorts := params.portBindings.map Prod.fst },
   { portBindings := params.portBindings
     binds := params.binds
     restartPolicy := params.restartPolicy
     resources := params.resources })

/-- Runtime calls observed during a standalone update. -/
inductive UEvent
  | inspectC (id : Str)
  | pullI (img : Str)
  | stopC (id : Str)
  | removeC (id : Str)
  | createC (cfg : CreateConfig) (hcfg : CreateHostConfig) (name : Str)
  | startNew (id : Str)
deriving DecidableEq

/-- Rank of a standalone-update step in the required order. -/
def urank : UEvent → Nat
  | .inspectC _ => 0
  | .pullI _ => 1
  | .stopC _ => 2
  | .removeC _ => 3
  | .createC _ _ _ => 4
  | .startNew _ => 5

/-- Whether an event is the create step. -/
def isCreateEvent : UEvent → Bool
  | .createC _ _ _ => true
  | _ => false

/-- The runtime client as the standalone updater sees it. -/
structure UClient where
  inspectContainer : Str → Except Str ContainerJSON
  pullImage : Str → Except Str Unit
  stopContainer : Str → Except Str Unit
  removeContainer : Str → Except Str Unit
  createContainer : CreateConfig → CreateHostConfig → Str → Except Str Str
  startContainer : Str → Except Str Unit

/-- Function `UpdateStandaloneContainer`: inspect, extract, pull, stop, remove,
create (same name, extracted configuration, new image), start — each
step attempted only after the previous one succeeded, with the
source's error messages. Returns the trace of runtime calls and the
result. -/
def updateStandaloneContainer (cl : UClient) (containerID : Str) :
    List UEvent × Except Str Unit :=
  match cl.inspectContainer containerID with
  | .error e =>
    ([.inspectC containerID],
      .error (str "failed to inspect container " ++ containerID ++ str ": " ++ e))
  | .ok containerJSON =>
    match extractContainerParams containerJSON with
    | .error e =>
      ([.inspectC containerID],
        .error (str "failed to extract container parameters for " ++ containerID ++
          str ": " ++ e))
    | .ok params =>
      match cl.pullImage params.image with
      | .error e =>
        ([.inspectC containerID, .pullI params.image],
          .error (str "failed to pull latest image " ++ params.image ++ str ": " ++ e))
      | .ok _ =>
        match cl.stopContainer containerID with
        | .error e =>
          ([.inspectC containerID, .pullI params.image, .stopC containerID],
            .error (str "failed to stop container " ++ containerID ++ str ": " ++ e))
        | .ok _ =>
          match cl.removeContainer containerID with
          | .error e =>
            ([.inspectC containerID, .pullI params.image, .stopC containerID,
               .removeC containerID],
              .error (str "failed to remove container " ++ containerID ++ str ": " ++ e))
          | .ok _ =>
            let args := buildCreateArgs params
            match cl.createContainer args.1 args.2 params.name with
            | .error e =>
              ([.inspectC containerID, .pullI params.image, .stopC containerID,
                 .removeC containerID, .createC args.1 args.2 params.name],
                .error (str "failed to create new container " ++ params.name ++
                  str ": " ++ e))
            | .ok newContainerID =>
              match cl.startContainer newContainerID with
              | .error e =>
                ([.inspectC containerID, .pullI params.image, .stopC containerID,
                   .removeC containerID, .createC args.1 args.2 params.name,
                   .startNew newContainerID],
                  .error (str "failed to start new container " ++ newContainerID ++
                    str ": " ++ e))
              | .ok _ =>
                ([.inspectC containerID, .pullI params.image, .stopC containerID,
                   .removeC containerID, .createC args.1 args.2 params.name,
                   .startNew newContainerID],
                  .ok ())

/-- External calls observed during a compose-project update. -/
inductive CEvent
  | pullI (img : Str)
  | downCmd (workDir : Str)
  | upCmd (workDir : Str)
deriving DecidableEq

/-- Whether a compose event is the external tear-down command. -/
def isDownEvent : CEvent → Bool
  | .downCmd _ => true
  | _ => false

/-- Whether a compose event is the external bring-up command. -/
def isUpEvent : CEvent → Bool
  | .upCmd _ => true
  | _ => false

/-- The capabilities the compose updater uses: image pulls and the two
external `docker compose` commands bound to a working directory
(`none` result modelled as `.ok`, a non-zero exit as `.error` carrying
the captured output). -/
structure CClient where
  pullImage : Str → Except Str Unit
  composeDown : Str → Except Str Unit
  composeUp : Str → Except Str Unit

/-- Step 1 of `UpdateComposeProject`: pull every member image,
stopping at the first failure with the source's error message. -/
def pullProjectImages (cl : CClient) (projectName : Str) :
    List Str → List CEvent × Except Str Unit
  | [] => ([], .ok ())
  | image :: rest =>
    match cl.pullImage image with
    | .error e =>
      ([.pullI image],
        .error (str "failed to pull image " ++ image ++ str " for project " ++
          projectName ++ str ": " ++ e))
    | .ok _ =>
      let p := pullProjectImages cl projectName rest
      (.pullI image :: p.1, p.2)

/-- Function `UpdateComposeProject`: reject an empty working directory before
any call; pull all member images; run `docker compose down`; only on
its success run `docker compose up -d --build`. -/
def updateComposeProject (cl : CClient) (projectName workDir : Str)
    (containerImages : List Str) : List CEvent × Except Str Unit :=
  if workDir = [] then
    ([], .error (str "working directory is required for compose project " ++ projectName))
  else
    match pullProjectImages cl projectName containerImages with
    | (tr, .error e) => (tr, .error e)
    | (tr, .ok _) =>
      match cl.composeDown workDir with
      | .error e =>
        (tr ++ [.downCmd workDir],
          .error (str "failed to execute 'docker compose down' for project " ++
            projectName ++ str ": " ++ e))
      | .ok _ =>
        match cl.composeUp workDir with
        | .error e =>
          (tr ++ [.downCmd workDir, .upCmd workDir],
            .error (str "failed to execute 'docker compose up -d --build' for project " ++
              projectName ++ str ": " ++ e))
        | .ok _ => (tr ++ [.downCmd workDir, .upCmd workDir], .ok ())

/-- Number of remaining steps of a detection task (used to show every
task finishes). -/
def phaseRank : TaskPhase → Nat
  | .done => 0
  | .toCurrent _ => 1
  | .toWrite _ => 2
  | .toResolve => 3
  | .toPull => 4
  | .ready => 5

/-- The fields of a container that update detection never writes:
identity, name, image reference, lifecycle state and labels. -/
def infoSkel (c : ContainerInfo) : Str × Str × Str × Str × Option (List (Str × Str)) :=
  (c.id, c.name, c.image, c.state, c.labels)

/-- The group fields that update detection never writes, with the
member skeletons. -/
def groupSkel (g : ContainerGroup) :
    Str × Str × GroupType × Str ×
      List (Str × Str × Str × Str × Option (List (Str × Str))) :=
  (g.id, g.name, g.type, g.workingDir, g.containers.map infoSkel)

/-- A container under detection in the concrete scenarios below. -/
def nginxInfo (ident : Str) : ContainerInfo :=
  { id := ident
    name := ident
    image := str "nginx:latest"
    imageDigest := []
    latestDigest := []
    state := str "running"
    hasUpdate := false
    labels := none }

/-- A standalone group holding one container. -/
def soloGroup (c : ContainerInfo) : ContainerGroup :=
  { id := c.id
    name := c.name
    type := .standalone
    containers := [c]
    workingDir := []
    hasUpdates := false
    allRunning := false }

/-- Scenario client for the digest-comparison claim: the first digest
call for an image observes `sha256:bbb`, later calls observe
`sha256:aaa`. -/
def c1ClientDiff : CUClient :=
  { pullResult := fun _ _ => true
    imageInspect := fun _ n =>
      if n = 0 then some ⟨[str "sha256:bbb"], str "imgb"⟩
      else some ⟨[str "sha256:aaa"], str "imga"⟩ }

/-- Scenario client whose digest calls always observe `sha256:aaa`. -/
def c1ClientSame : CUClient :=
  { pullResult := fun _ _ => true
    imageInspect := fun _ _ => some ⟨[str "sha256:aaa"], str "imga"⟩ }

/-- Scenario client whose pulls always fail. -/
def c4FailClient : CUClient :=
  { pullResult := fun _ _ => false
    imageInspect := fun _ _ => none }

/-- Scenario groups for the soft-failure claim: two standalone
containers with the same registry image. -/
def c4Groups : List ContainerGroup :=
  [soloGroup (nginxInfo (str "a")), soloGroup (nginxInfo (str "b"))]

/-- Shape invariant of the compose-project accumulator: each entry's
group is keyed by its project name, is a compose group, is non-empty,
and every member carries that project label. -/
def composeAccOk (m : List (Str × ContainerGroup)) : Prop :=
  ∀ p ∈ m, p.2.id = p.1 ∧ p.2.type = GroupType.compose ∧ p.2.containers ≠ [] ∧
    ∀ info ∈ p.2.containers, composeProjectOf info.labels = (true, p.1)

/-- Shape invariant of the standalone accumulator: each group is a
standalone unit holding exactly one member, keyed by that member's
identifier, whose labels fail the compose test. -/
def standaloneAccOk (l : List ContainerGroup) : Prop :=
  ∀ g ∈ l, g.type = GroupType.standalone ∧
    ∃ info, g.containers = [info] ∧ g.id = info.id ∧
      (composeProjectOf info.labels).1 = false

/-- Scenario containers for the grouping claim: one compose-labelled,
one unlabelled. -/
def c6Containers : List DContainer :=
  [{ id := str "c1"
     names := [str "/app-web-1"]
     image := str "nginx:latest"
     state := str "running"
     labels := some [(str "com.docker.compose.project", str "app")] },
   { id := str "c2"
     names := [str "/redis"]
     image := str "redis:latest"
     state := str "running"
     labels := some [] }]

/-- The standalone group `GetContainerGroups` builds for the second
scenario container. -/
def c6Standalone : ContainerGroup :=
  { id := str "c2"
    name := str "redis"
    type := .standalone
    containers := [{ id := str "c2"
                     name := str "redis"
                     image := str "redis:latest"
                     imageDigest := []
                     latestDigest := []
                     state := str "running"
                     hasUpdate := false
                     labels := some [] }]
    workingDir := []
    hasUpdates := false
    allRunning := false }

/-- Scenario client for the rollup claim. -/
def c7Client : CUClient :=
  { pullResult := fun _ _ => true
    imageInspect := fun _ _ => some ⟨[str "sha256:d"], str "img"⟩ }

/-- A compose group with no members, for the empty rollup case. -/
def c7EmptyGroup : ContainerGroup :=
  { id := str "empty"
    name := str "empty"
    type := .compose
    containers := []
    workingDir := str "/srv"
    hasUpdates := true
    allRunning := true }

/-- A concrete inspection record for the standalone-update scenarios. -/
def c2JSON : ContainerJSON :=
  { name := str "/web"
    config := some ⟨str "busybox:latest", [], [], [], none, none⟩
    hostConfig := some ⟨none, none, ⟨str "no", 0⟩, ⟨0, 0⟩⟩
    networkSettings := none }

/-- Scenario client whose pull fails after a successful inspection. -/
def c2PullFailClient : UClient :=
  { inspectContainer := fun _ => .ok c2JSON
    pullImage := fun _ => .error (str "no such image")
    stopContainer := fun _ => .ok ()
    removeContainer := fun _ => .ok ()
    createContainer := fun _ _ _ => .ok (str "newid")
    startContainer := fun _ => .ok () }

/-- A full inspection record for the create-arguments scenario. -/
def c10JSON : ContainerJSON :=
  { name := str "/web"
    config := some ⟨str "nginx:latest", [str "A=1"], [str "run"], [],
      some [(str "k", str "v")], none⟩
    hostConfig := some ⟨some [(str "80/tcp", [⟨str "0.0.0.0", str "8080"⟩])],
      some [str "/h:/c"], ⟨str "always", 0⟩, ⟨2000000000, 536870912⟩⟩
    networkSettings := some ⟨some [str "bridge"]⟩ }

/-- The snapshot `ExtractContainerParams` produces for `c10JSON`. -/
def c10Params : ContainerParams :=
  { image := str "nginx:latest"
    name := str "web"
    env := [str "A=1"]
    cmd := [str "run"]
    entrypoint := []
    portBindings := [(str "80/tcp", [⟨str "0.0.0.0", str "8080"⟩])]
    binds := [str "/h:/c"]
    networks := [str "bridge"]
    restartPolicy := ⟨str "always", 0⟩
    labels := some [(str "k", str "v")]
    resources := ⟨2000000000, 536870912⟩ }

/-- Scenario client for which a standalone update fully succeeds. -/
def c10Client : UClient :=
  { inspectContainer := fun _ => .ok c10JSON
    pullImage := fun _ => .ok ()
    stopContainer := fun _ => .ok ()
    removeContainer := fun _ => .ok ()
    createContainer := fun _ _ _ => .ok (str "newid")
    startContainer := fun _ => .ok () }

/-- Scenario client for which a compose update fully succeeds. -/
def c3OkClient : CClient :=
  { pullImage := fun _ => .ok ()
    composeDown := fun _ => .ok ()
    composeUp := fun _ => .ok () }

/-- Scenario client for the duplicate-pull interleaving: pulls always
succeed and digests always resolve. -/
def c9Client : CUClient :=
  { pullResult := fun _ _ => true
    imageInspect := fun _ _ => some ⟨[str "sha256:d"], str "img"⟩ }

/-- Two standalone containers sharing the image `nginx:latest`. -/
def c9Groups : List ContainerGroup :=
  [soloGroup (nginxInfo (str "a")), soloGroup (nginxInfo (str "b"))]

end BleedingEdge

namespace BleedingEdge

theorem splitOnChar_ne_nil (sep : Char) (s : Str) : splitOnChar sep s ≠ [] := by
  cases s with
  | nil => simp [splitOnChar]
  | cons c cs =>
    simp only [splitOnChar]
    split
    · simp
    · split
      · simp
      · simp

theorem splitOnChar_headD (sep : Char) (s : Str) :
    (splitOnChar sep s).headD [] = s.takeWhile (· ≠ sep) := by
  induction s with
  | nil => simp [splitOnChar, List.takeWhile]
  | cons c cs ih =>
    simp only [splitOnChar, List.takeWhile]
    by_cases h : c = sep
    · simp [h]
    · simp only [if_neg h]
      have hne := splitOnChar_ne_nil sep cs
      cases hsp : splitOnChar sep cs with
      | nil => exact absurd hsp hne
      | cons hd tl =>
        rw [hsp] at ih
        simp only [List.headD_cons] at ih
        simp [h, ih]

theorem slash_mem_takeWhile_ne_colon {s : Str}
    (hmem : '/' ∈ s) (hno : ':' ∉ s.takeWhile (· ≠ '/')) :
    '/' ∈ s.takeWhile (· ≠ ':') := by
  induction s with
  | nil => simp at hmem
  | cons c cs ih =>
    by_cases hc : c = '/'
    · subst hc
      rw [List.takeWhile_cons_of_pos (by decide)]
      exact List.mem_cons_self _ _
    · have hmem' : '/' ∈ cs := by
        rcases List.mem_cons.mp hmem with h1 | h2
        · exact absurd h1.symm hc
        · exact h2
      have htw : (c :: cs).takeWhile (· ≠ '/') = c :: cs.takeWhile (· ≠ '/') :=
        List.takeWhile_cons_of_pos (by simpa using hc)
      rw [htw] at hno
      have hcc : c ≠ ':' := fun h => hno (by simp [h])
      have hno' : ':' ∉ cs.takeWhile (· ≠ '/') := fun h => hno (List.mem_cons.mpr (Or.inr h))
      rw [List.takeWhile_cons_of_pos (by simpa using hcc)]
      exact List.mem_cons.mpr (Or.inr (ih hmem' hno'))

theorem splitOnChar_no_sep {sep : Char} {s : Str} (h : sep ∉ s) :
    splitOnChar sep s = [s] := by
  induction s with
  | nil => simp [splitOnChar]
  | cons c cs ih =>
    have hc : c ≠ sep := fun hh => h (by simp [hh])
    have hcs : sep ∉ cs := fun hh => h (List.mem_cons.mpr (Or.inr hh))
    simp only [splitOnChar, if_neg hc, ih hcs]

/-- Claim C8 (counterexample): the classification rule exactly as the
claim words it marks `team/my-app:1.0` as local (its first path
component `team` has no dot or colon and its base name `my-app`
contains a hyphen), but the source's `isLocalImage` classifies it as
registry-sourced, because the source additionally requires the
pre-tag portion of the reference to contain no slash. -/
theorem c8_claim_counterexample :
    claimLocalImage (str "team/my-app:1.0") = true ∧
      isLocalImage (str "team/my-app:1.0") = false := by
  constructor
  · decide
  · decide

/-- Claim C8 (amended): `isLocalImage` treats a reference as local iff
it is a raw `sha256:` digest reference, or is hosted under a
`localhost` registry name, or — containing no slash at all — its base
name (the portion before the tag colon) contains a hyphen or
underscore. The spec's five examples are instances (see the witness
lemmas below the definition). -/
theorem containsChar_eq_true_iff {s : Str} {c : Char} : containsChar s c = true ↔ c ∈ s := by
  simp [containsChar]

theorem containsChar_eq_false_iff {s : Str} {c : Char} : containsChar s c = false ↔ c ∉ s := by
  simp [containsChar]

theorem claimBaseName_of_no_slash {r : Str} (hs : '/' ∉ r) :
    claimBaseName r = r.takeWhile (· ≠ ':') := by
  unfold claimBaseName
  rw [splitOnChar_no_sep hs]
  rfl

theorem localNameHeuristic_eq_true_iff (r : Str) :
    localNameHeuristic r = true ↔
      ('/' ∉ r.takeWhile (· ≠ ':') ∧
        ('-' ∈ r.takeWhile (· ≠ ':') ∨ '_' ∈ r.takeWhile (· ≠ ':'))) := by
  unfold localNameHeuristic
  rw [splitOnChar_headD]
  rw [Bool.and_eq_true_iff, Bool.or_eq_true_iff, Bool.not_eq_true']
  rw [containsChar_eq_false_iff, containsChar_eq_true_iff, containsChar_eq_true_iff]

theorem isLocalImage_eq_true_iff (r : Str) :
    isLocalImage r = true ↔
      (startsWith r (str "sha256:") = true ∨ startsWith r (str "localhost/") = true ∨
        startsWith r (str "localhost:") = true ∨
        ('/' ∉ r ∧ ('-' ∈ r.takeWhile (· ≠ ':') ∨ '_' ∈ r.takeWhile (· ≠ ':')))) := by
  unfold isLocalImage
  by_cases h1 : startsWith r (str "sha256:") = true
  · rw [if_pos h1]
    exact ⟨fun _ => Or.inl h1, fun _ => rfl⟩
  rw [if_neg h1]
  by_cases h2 : (startsWith r (str "localhost/") || startsWith r (str "localhost:")) = true
  · rw [if_pos h2]
    refine ⟨fun _ => ?_, fun _ => rfl⟩
    rcases Bool.or_eq_true_iff.mp h2 with h | h
    · exact Or.inr (Or.inl h)
    · exact Or.inr (Or.inr (Or.inl h))
  rw [if_neg h2]
  have h2a : ¬startsWith r (str "localhost/") = true := fun h => h2 (by rw [h]; rfl)
  have h2b : ¬startsWith r (str "localhost:") = true := fun h =>
    h2 (by rw [h, Bool.or_true])
  by_cases hs : '/' ∈ r
  · -- the reference contains a slash: SplitN yields two parts
    have hparts : splitN2 '/' r = [r.takeWhile (· ≠ '/'), (r.dropWhile (· ≠ '/')).tail] := by
      unfold splitN2
      rw [if_pos hs]
    rw [hparts]
    simp only [registryHostRule]
    by_cases hd : (containsChar (r.takeWhile (· ≠ '/')) '.' ||
        containsChar (r.takeWhile (· ≠ '/')) ':') = true
    · rw [if_pos hd]
      constructor
      · intro h; exact absurd h (by simp)
      · intro h
        rcases h with h | h | h | h
        · exact absurd h h1
        · exact absurd h h2a
        · exact absurd h h2b
        · exact absurd hs h.1
    · rw [if_neg hd]
      -- no dot or colon in the host candidate, so the first slash precedes
      -- any colon and the pre-tag base name contains a slash
      have hnc : ':' ∉ r.takeWhile (· ≠ '/') := by
        intro hmem
        exact hd (by rw [containsChar_eq_true_iff.mpr hmem, Bool.or_true])
      have hmemb : '/' ∈ r.takeWhile (· ≠ ':') := slash_mem_takeWhile_ne_colon hs hnc
      rw [localNameHeuristic_eq_true_iff]
      constructor
      · intro h; exact absurd hmemb h.1
      · intro h
        rcases h with h | h | h | h
        · exact absurd h h1
        · exact absurd h h2a
        · exact absurd h h2b
        · exact absurd hs h.1
  · -- no slash anywhere: SplitN yields a single part
    have hone : splitN2 '/' r = [r] := by
      unfold splitN2
      rw [if_neg hs]
    rw [hone]
    simp only [registryHostRule]
    have hnoslash : '/' ∉ r.takeWhile (· ≠ ':') := fun hmem =>
      hs (List.takeWhile_subset _ hmem)
    rw [localNameHeuristic_eq_true_iff]
    constructor
    · intro h
      exact Or.inr (Or.inr (Or.inr ⟨hs, h.2⟩))
    · intro h
      rcases h with h | h | h | h
      · exact absurd h h1
      · exact absurd h h2a
      · exact absurd h h2b
      · exact ⟨hnoslash, h.2⟩

theorem amendedLocalImage_eq_true_iff (r : Str) :
    amendedLocalImage r = true ↔
      (startsWith r (str "sha256:") = true ∨ startsWith r (str "localhost/") = true ∨
        startsWith r (str "localhost:") = true ∨
        ('/' ∉ r ∧ ('-' ∈ r.takeWhile (· ≠ ':') ∨ '_' ∈ r.takeWhile (· ≠ ':')))) := by
  unfold amendedLocalImage
  by_cases hs : '/' ∈ r
  · simp only [Bool.or_eq_true_iff, Bool.and_eq_true_iff, Bool.not_eq_true',
      containsChar_eq_true_iff, containsChar_eq_false_iff]
    tauto
  · rw [claimBaseName_of_no_slash hs]
    simp only [Bool.or_eq_true_iff, Bool.and_eq_true_iff, Bool.not_eq_true',
      containsChar_eq_true_iff, containsChar_eq_false_iff]
    tauto

/-- Claim C8 (amended): `isLocalImage` treats a reference as local iff
it is a raw `sha256:` digest reference, or is hosted under a
`localhost` registry name, or — containing no slash at all — its base
name (the portion before the tag colon) contains a hyphen or
underscore. Stated as: the source classification agrees with the
amended rule on every image reference. -/
theorem c8_isLocalImage_amended (r : Str) : isLocalImage r = amendedLocalImage r := by
  have h := (isLocalImage_eq_true_iff r).trans (amendedLocalImage_eq_true_iff r).symm
  cases ha : isLocalImage r <;> cases hb : amendedLocalImage r
  · rfl
  · rw [ha, hb] at h
    exact absurd (h.mpr rfl) Bool.false_ne_true
  · rw [ha, hb] at h
    exact absurd (h.mp rfl) Bool.false_ne_true
  · rfl

/-- Claim C8 (examples): the five classification examples given by the
specification, evaluated on the source's `isLocalImage`. -/
theorem c8_examples :
    isLocalImage (str "sha256:deadbeef0123456789") = true ∧
      isLocalImage (str "localhost/app:dev") = true ∧
      isLocalImage (str "myproject-web:latest") = true ∧
      isLocalImage (str "nginx:latest") = false ∧
      isLocalImage (str "registry.example.com/team/app:1.0") = false := by
  refine ⟨?_, ?_, ?_, ?_, ?_⟩ <;> decide

/-! Lemmas about the update-detection rollup. -/

theorem foldl_hasUpdate_or (l : List ContainerInfo) :
    ∀ acc : Bool,
      l.foldl (fun acc c => if c.hasUpdate then true else acc) acc =
        (acc || l.any fun c => c.hasUpdate) := by
  induction l with
  | nil => intro acc; simp
  | cons c cs ih =>
    intro acc
    rw [List.foldl_cons, List.any_cons, ih]
    by_cases h : c.hasUpdate = true
    · simp [h]
    · simp only [Bool.not_eq_true] at h
      simp [h]

theorem rollupGroup_hasUpdates (g : ContainerGroup) :
    (rollupGroup g).hasUpdates = g.containers.any fun c => c.hasUpdate := by
  unfold rollupGroup
  rw [foldl_hasUpdate_or]
  simp

/-- Claim C7: after a detection cycle — under every interleaving of
the per-container tasks — each group's unit-level flag is true iff
some member's flag is true, and a group with no members has the flag
false. -/
theorem c7_group_flag_iff_member (client : CUClient) (sched : List Nat)
    (groups : List ContainerGroup) (g : ContainerGroup)
    (hg : g ∈ (checkUpdatesRun client sched groups).2) :
    (g.hasUpdates = true ↔ ∃ c ∈ g.containers, c.hasUpdate = true) ∧
      (g.containers = [] → g.hasUpdates = false) := by
  unfold checkUpdatesRun rollupGroups at hg
  rcases List.mem_map.mp hg with ⟨g0, _, hEq⟩
  subst hEq
  have hU := rollupGroup_hasUpdates g0
  have hC : (rollupGroup g0).containers = g0.containers := rfl
  constructor
  · rw [hU, hC]
    exact List.any_eq_true
  · intro hnil
    rw [hC] at hnil
    rw [hU, hnil]
    rfl

/-- Witness for claim C7 at a concrete cycle: the empty group's
unit-level flag is reset to false even though it started true. -/
theorem c7_witness :
    ((checkUpdatesRun c7Client [] [c7EmptyGroup]).2.headD c7EmptyGroup).hasUpdates = false := by
  have hm : ((checkUpdatesRun c7Client [] [c7EmptyGroup]).2.headD c7EmptyGroup) ∈
      (checkUpdatesRun c7Client [] [c7EmptyGroup]).2 := by decide
  have h := c7_group_flag_iff_member c7Client [] [c7EmptyGroup] _ hm
  have hnil : ((checkUpdatesRun c7Client [] [c7EmptyGroup]).2.headD c7EmptyGroup).containers = [] := by
    decide
  exact h.2 hnil

/-! Lemmas about the shared cache and call counters. -/

theorem lookupStr_insertStr_self {α : Type} (m : List (Str × α)) (k : Str) (v : α) :
    lookupStr (insertStr m k v) k = some v := by
  induction m with
  | nil => simp [insertStr, lookupStr]
  | cons p rest ih =>
    rcases p with ⟨k', v'⟩
    by_cases h : k' = k
    · simp [insertStr, lookupStr, h]
    · simp [insertStr, lookupStr, h, ih]

theorem countOf_bumpCount (m : List (Str × Nat)) (k : Str) :
    countOf (bumpCount m k) k = countOf m k + 1 := by
  simp [bumpCount, countOf, lookupStr_insertStr_self]

/-- Claim C1: for a registry-sourced container (one `isLocalImage`
rejects), the detection task resolves the container's current digest
by its own, separate digest call on the container's image reference,
records it together with the latest digest taken from the per-cycle
cache (the cached entry on a hit; the freshly resolved digest — which
the task also writes to the cache — on a miss), and sets the update
flag to true exactly when the two digests differ byte for byte, so
equal digests give a false flag. -/
theorem c1_update_flag_iff_digest_differs (client : CUClient) (sh : Shared)
    (c : ContainerInfo) (hreg : isLocalImage c.image = false) :
    (∀ latest insp,
        lookupStr sh.cache c.image = some latest →
        client.imageInspect c.image (countOf sh.digestCalls c.image) = some insp →
        (runTask client sh ⟨c, .ready⟩).2.c =
          { c with imageDigest := getImageDigest insp
                   latestDigest := latest
                   hasUpdate := decide (getImageDigest insp ≠ latest) }) ∧
    (∀ inspL inspC,
        lookupStr sh.cache c.image = none →
        client.pullResult c.image (countOf sh.pullCalls c.image) = true →
        client.imageInspect c.image (countOf sh.digestCalls c.image) = some inspL →
        client.imageInspect c.image (countOf sh.digestCalls c.image + 1) = some inspC →
        (runTask client sh ⟨c, .ready⟩).2.c =
          { c with imageDigest := getImageDigest inspC
                   latestDigest := getImageDigest inspL
                   hasUpdate := decide (getImageDigest inspC ≠ getImageDigest inspL) } ∧
        lookupStr (runTask client sh ⟨c, .ready⟩).1.cache c.image =
          some (getImageDigest inspL)) := by
  constructor
  · intro latest insp hHit hCur
    simp [runTask, stepPair, taskStep, hreg, hHit, hCur]
  · intro inspL inspC hMiss hPull hLat hCur
    constructor
    · simp [runTask, stepPair, taskStep, hreg, hMiss, hPull, hLat, countOf_bumpCount, hCur]
    · simp [runTask, stepPair, taskStep, hreg, hMiss, hPull, hLat, countOf_bumpCount, hCur,
        lookupStr_insertStr_self]

/-- Witness for claim C1 at concrete cycles: a container whose current
digest `sha256:aaa` differs from the freshly pulled `sha256:bbb` gets
the flag true; when both digests are `sha256:aaa` the flag is false. -/
theorem c1_witness :
    (runTask c1ClientDiff initShared ⟨nginxInfo (str "w"), .ready⟩).2.c.hasUpdate = true ∧
      (runTask c1ClientSame initShared ⟨nginxInfo (str "w"), .ready⟩).2.c.hasUpdate = false := by
  constructor
  · have h := (c1_update_flag_iff_digest_differs c1ClientDiff initShared (nginxInfo (str "w"))
      (by decide)).2 ⟨[str "sha256:bbb"], str "imgb"⟩ ⟨[str "sha256:aaa"], str "imga"⟩
      (by decide) (by decide) (by decide) (by decide)
    rw [h.1]
    decide
  · have h := (c1_update_flag_iff_digest_differs c1ClientSame initShared (nginxInfo (str "w"))
      (by decide)).2 ⟨[str "sha256:aaa"], str "imga"⟩ ⟨[str "sha256:aaa"], str "imga"⟩
      (by decide) (by decide) (by decide) (by decide)
    rw [h.1]
    decide

/-- Claim C9 (race witness): with two containers sharing the image
`nginx:latest`, the interleaving in which both tasks perform their
locked cache read before either writes the cache makes the cycle pull
that one reference twice — the check-then-pull is not atomic, so the
per-cycle cache does not bound pulls to one per reference. -/
theorem c9_double_pull :
    ((checkUpdatesRun c9Client [0, 1] c9Groups).1.events.count
        (CUEvent.pullImage (str "nginx:latest"))) = 2 := by
  decide

/-! Lemmas showing that every detection task runs to completion and
never touches another container's identifying fields. -/

theorem stepPair_done (client : CUClient) (p : Shared × Task) (h : p.2.phase = .done) :
    stepPair client p = p := by
  rcases p with ⟨sh, t⟩
  rcases t with ⟨c, ph⟩
  have h' : ph = TaskPhase.done := h
  subst h'
  rfl

theorem phaseRank_le_five (ph : TaskPhase) : phaseRank ph ≤ 5 := by
  cases ph <;> simp [phaseRank]

theorem phaseRank_eq_zero {ph : TaskPhase} (h : phaseRank ph = 0) : ph = .done := by
  cases ph <;> simp [phaseRank] at h ⊢

theorem taskStep_rank (client : CUClient) (sh : Shared) (t : Task)
    (h : t.phase ≠ .done) :
    phaseRank (taskStep client sh t).2.phase < phaseRank t.phase := by
  rcases t with ⟨c, ph⟩
  cases ph
  case done => exact absurd rfl h
  all_goals
    simp only [taskStep]
    repeat' split
    all_goals simp [phaseRank]

theorem stepPair_iter_done (client : CUClient) :
    ∀ (k : Nat) (p : Shared × Task), phaseRank p.2.phase ≤ k →
      ((stepPair client)^[k] p).2.phase = .done := by
  intro k
  induction k with
  | zero =>
    intro p hp
    simpa using phaseRank_eq_zero (Nat.le_zero.mp hp)
  | succ k ih =>
    intro p hp
    rw [Function.iterate_succ_apply]
    by_cases hd : p.2.phase = .done
    · rw [stepPair_done client p hd]
      apply ih
      rw [hd]
      exact Nat.zero_le k
    · apply ih
      have hlt : phaseRank (stepPair client p).2.phase < phaseRank p.2.phase :=
        taskStep_rank client p.1 p.2 hd
      omega

theorem runTask_done (client : CUClient) (sh : Shared) (t : Task) :
    (runTask client sh t).2.phase = .done := by
  have h : runTask client sh t = (stepPair client)^[5] (sh, t) := rfl
  rw [h]
  exact stepPair_iter_done client 5 (sh, t) (phaseRank_le_five t.phase)

theorem finishTasks_done (client : CUClient) :
    ∀ (ts : List Task) (sh : Shared) (t : Task),
      t ∈ (finishTasks client sh ts).2 → t.phase = .done := by
  intro ts
  induction ts with
  | nil =>
    intro sh t ht
    simp [finishTasks] at ht
  | cons t0 rest ih =>
    intro sh t ht
    simp only [finishTasks] at ht
    rcases List.mem_cons.mp ht with h | h
    · rw [h]
      exact runTask_done client sh t0
    · exact ih _ _ h

theorem taskStep_skel (client : CUClient) (sh : Shared) (t : Task) :
    infoSkel (taskStep client sh t).2.c = infoSkel t.c := by
  rcases t with ⟨c, ph⟩
  cases ph
  all_goals
    simp only [taskStep]
    repeat' split
    all_goals simp [infoSkel]

theorem stepPair_skel (client : CUClient) (p : Shared × Task) :
    infoSkel (stepPair client p).2.c = infoSkel p.2.c :=
  taskStep_skel client p.1 p.2

theorem runTask_skel (client : CUClient) (sh : Shared) (t : Task) :
    infoSkel (runTask client sh t).2.c = infoSkel t.c := by
  simp [runTask, stepPair_skel]

theorem map_set_eq {α β : Type} (f : α → β) :
    ∀ (ts : List α) (i : Nat) (a : α),
      (∀ b, ts.get? i = some b → f a = f b) →
      (ts.set i a).map f = ts.map f := by
  intro ts
  induction ts with
  | nil => intro i a _; rfl
  | cons x xs ih =>
    intro i a hf
    cases i with
    | zero =>
      show f a :: xs.map f = f x :: xs.map f
      rw [hf x rfl]
    | succ n =>
      show f x :: (xs.set n a).map f = f x :: xs.map f
      rw [ih n a fun b hb => hf b hb]

theorem runSched_skel (client : CUClient) :
    ∀ (l : List Nat) (sh : Shared) (ts : List Task),
      (runSched client l sh ts).2.map (fun t => infoSkel t.c) =
        ts.map (fun t => infoSkel t.c) := by
  intro l
  induction l with
  | nil => intro sh ts; rfl
  | cons i rest ih =>
    intro sh ts
    simp only [runSched]
    cases hg : ts.get? i with
    | none => exact ih sh ts
    | some t =>
      rw [ih]
      refine map_set_eq _ ts i _ ?_
      intro b hb
      rw [hg] at hb
      cases hb
      exact taskStep_skel client sh t

theorem finishTasks_skel (client : CUClient) :
    ∀ (ts : List Task) (sh : Shared),
      (finishTasks client sh ts).2.map (fun t => infoSkel t.c) =
        ts.map (fun t => infoSkel t.c) := by
  intro ts
  induction ts with
  | nil => intro sh; rfl
  | cons t0 rest ih =>
    intro sh
    simp only [finishTasks, List.map_cons]
    rw [runTask_skel, ih]

theorem rebuildGroups_skel :
    ∀ (gs : List ContainerGroup) (cs : List ContainerInfo),
      cs.map infoSkel = (gs.flatMap fun g => g.containers).map infoSkel →
      (rebuildGroups gs cs).map groupSkel = gs.map groupSkel := by
  intro gs
  induction gs with
  | nil => intro cs _; rfl
  | cons g rest ih =>
    intro cs h
    rw [List.flatMap_cons, List.map_append] at h
    have hlen : (g.containers.map infoSkel).length = g.containers.length :=
      List.length_map _ _
    have htake : (cs.take g.containers.length).map infoSkel = g.containers.map infoSkel := by
      rw [List.map_take, h]
      exact List.take_left' hlen
    have hdrop : (cs.drop g.containers.length).map infoSkel =
        (rest.flatMap fun g => g.containers).map infoSkel := by
      rw [List.map_drop, h]
      exact List.drop_left' hlen
    simp only [rebuildGroups, List.map_cons]
    rw [ih _ hdrop]
    have hg : groupSkel { g with containers := cs.take g.containers.length } = groupSkel g := by
      unfold groupSkel
      simp only
      rw [htake]
    rw [hg]

theorem rollupGroups_skel : ∀ gs : List ContainerGroup,
    (rollupGroups gs).map groupSkel = gs.map groupSkel
  | [] => rfl
  | g :: gs => by
    simp only [rollupGroups, List.map_cons] at rollupGroups_skel ⊢
    rw [rollupGroups_skel gs]
    rfl

/-- Claim C4: detection failures are absorbed per instance. The cycle
always returns success; the identifying fields of every container and
group survive the cycle unchanged under every interleaving; every
task still runs to completion (the wait covers all goroutines); and a
failed pull, failed latest-digest resolution or failed current-digest
resolution only sets that one container's flag to false, ends that
task, and leaves the shared digest cache untouched. -/
theorem c4_soft_failures (client : CUClient) (sched : List Nat)
    (groups : List ContainerGroup) :
    (checkUpdates client sched groups).isOk = true ∧
    (checkUpdatesRun client sched groups).2.map groupSkel = groups.map groupSkel ∧
    (∀ (sh : Shared) (ts : List Task) (t : Task),
        t ∈ (finishTasks client sh ts).2 → t.phase = .done) ∧
    (∀ (sh : Shared) (c : ContainerInfo),
        client.pullResult c.image (countOf sh.pullCalls c.image) = false →
        (taskStep client sh ⟨c, .toPull⟩).2 = ⟨{ c with hasUpdate := false }, .done⟩ ∧
          (taskStep client sh ⟨c, .toPull⟩).1.cache = sh.cache) ∧
    (∀ (sh : Shared) (c : ContainerInfo),
        client.imageInspect c.image (countOf sh.digestCalls c.image) = none →
        ((taskStep client sh ⟨c, .toResolve⟩).2 = ⟨{ c with hasUpdate := false }, .done⟩ ∧
          (taskStep client sh ⟨c, .toResolve⟩).1.cache = sh.cache) ∧
        ∀ latest,
          (taskStep client sh ⟨c, .toCurrent latest⟩).2 =
            ⟨{ c with hasUpdate := false }, .done⟩) := by
  refine ⟨rfl, ?_, fun sh ts t ht => finishTasks_done client ts sh t ht, ?_, ?_⟩
  · -- skeleton preservation end to end
    show (rollupGroups (rebuildGroups groups
        ((finishTasks client (runSched client sched initShared
            ((groups.flatMap fun g => g.containers).map fun c => Task.mk c .ready)).1
          (runSched client sched initShared
            ((groups.flatMap fun g => g.containers).map fun c => Task.mk c .ready)).2).2.map
          fun t => t.c))).map groupSkel = groups.map groupSkel
    rw [rollupGroups_skel]
    apply rebuildGroups_skel
    have h1 : (((finishTasks client (runSched client sched initShared
        ((groups.flatMap fun g => g.containers).map fun c => Task.mk c .ready)).1
          (runSched client sched initShared
            ((groups.flatMap fun g => g.containers).map fun c => Task.mk c .ready)).2).2.map
          fun t => t.c).map infoSkel) =
        (finishTasks client (runSched client sched initShared
        ((groups.flatMap fun g => g.containers).map fun c => Task.mk c .ready)).1
          (runSched client sched initShared
            ((groups.flatMap fun g => g.containers).map fun c => Task.mk c .ready)).2).2.map
          fun t => infoSkel t.c := by
      rw [List.map_map]
      rfl
    rw [h1, finishTasks_skel, runSched_skel, List.map_map]
    rfl
  · intro sh c hfail
    constructor
    · simp [taskStep, hfail]
    · simp [taskStep, hfail]
  · intro sh c hfail
    refine ⟨⟨?_, ?_⟩, ?_⟩
    · simp [taskStep, hfail]
    · simp [taskStep, hfail]
    · intro latest
      simp [taskStep, hfail]

theorem isPrefixOf_append3 (a b c : Str) : List.isPrefixOf a (a ++ b ++ c) = true := by
  rw [List.append_assoc]
  exact List.isPrefixOf_iff_prefix.mpr (List.prefix_append a (b ++ c))

/-- Claim C2: the standalone update performs inspect, extract, pull,
stop, remove, create, start strictly in that order — the trace of
steps is always a non-empty prefix of that sequence, so stop precedes
remove, remove precedes create, and no step runs after a failure; the
create step implies both stop and remove happened and never happens
once the pull of the snapshot's image failed; every error names the
failing step and its target, with the trace ending at that step; and
a successful run performed all six steps. -/
theorem c2_standalone_step_order (cl : UClient) (containerID : Str) :
    (∃ k, 1 ≤ k ∧
        (updateStandaloneContainer cl containerID).1.map urank = [0, 1, 2, 3, 4, 5].take k) ∧
    ((∃ cfg hcfg n,
          UEvent.createC cfg hcfg n ∈ (updateStandaloneContainer cl containerID).1) →
        UEvent.stopC containerID ∈ (updateStandaloneContainer cl containerID).1 ∧
          UEvent.removeC containerID ∈ (updateStandaloneContainer cl containerID).1) ∧
    (∀ img e, UEvent.pullI img ∈ (updateStandaloneContainer cl containerID).1 →
        cl.pullImage img = .error e →
        (updateStandaloneContainer cl containerID).1.any isCreateEvent = false) ∧
    (∀ msg, (updateStandaloneContainer cl containerID).2 = .error msg →
        (List.isPrefixOf (str "failed to inspect container " ++ containerID) msg = true ∧
            (updateStandaloneContainer cl containerID).1.map urank = [0]) ∨
        (List.isPrefixOf (str "failed to extract container parameters for " ++ containerID)
              msg = true ∧
            (updateStandaloneContainer cl containerID).1.map urank = [0]) ∨
        (∃ img, UEvent.pullI img ∈ (updateStandaloneContainer cl containerID).1 ∧
            List.isPrefixOf (str "failed to pull latest image " ++ img) msg = true ∧
            (updateStandaloneContainer cl containerID).1.map urank = [0, 1]) ∨
        (List.isPrefixOf (str "failed to stop container " ++ containerID) msg = true ∧
            (updateStandaloneContainer cl containerID).1.map urank = [0, 1, 2]) ∨
        (List.isPrefixOf (str "failed to remove container " ++ containerID) msg = true ∧
            (updateStandaloneContainer cl containerID).1.map urank = [0, 1, 2, 3]) ∨
        (∃ cfg hcfg n,
            UEvent.createC cfg hcfg n ∈ (updateStandaloneContainer cl containerID).1 ∧
            List.isPrefixOf (str "failed to create new container " ++ n) msg = true ∧
            (updateStandaloneContainer cl containerID).1.map urank = [0, 1, 2, 3, 4]) ∨
        (∃ i, UEvent.startNew i ∈ (updateStandaloneContainer cl containerID).1 ∧
            List.isPrefixOf (str "failed to start new container " ++ i) msg = true ∧
            (updateStandaloneContainer cl containerID).1.map urank = [0, 1, 2, 3, 4, 5])) ∧
    ((updateStandaloneContainer cl containerID).2 = .ok () →
        (updateStandaloneContainer cl containerID).1.map urank = [0, 1, 2, 3, 4, 5]) := by
  rcases h1 : cl.inspectContainer containerID with e1 | cj
  · simp only [updateStandaloneContainer, h1]
    refine ⟨⟨1, by decide, by simp [urank]⟩, ?_, ?_, ?_, ?_⟩
    · rintro ⟨cfg, hcfg, n, hmem⟩
      simp at hmem
    · intro img e hmem hpe
      simp at hmem
    · intro msg hmsg
      injection hmsg with hm
      subst hm
      exact Or.inl ⟨isPrefixOf_append3 _ _ _, by simp [urank]⟩
    · intro hok
      simp at hok
  rcases h2 : extractContainerParams cj with e2 | params
  · simp only [updateStandaloneContainer, h1, h2]
    refine ⟨⟨1, by decide, by simp [urank]⟩, ?_, ?_, ?_, ?_⟩
    · rintro ⟨cfg, hcfg, n, hmem⟩
      simp at hmem
    · intro img e hmem hpe
      simp at hmem
    · intro msg hmsg
      injection hmsg with hm
      subst hm
      exact Or.inr (Or.inl ⟨isPrefixOf_append3 _ _ _, by simp [urank]⟩)
    · intro hok
      simp at hok
  rcases h3 : cl.pullImage params.image with e3 | u3
  · simp only [updateStandaloneContainer, h1, h2, h3]
    refine ⟨⟨2, by decide, by simp [urank]⟩, ?_, ?_, ?_, ?_⟩
    · rintro ⟨cfg, hcfg, n, hmem⟩
      simp at hmem
    · intro img e hmem hpe
      simp [isCreateEvent]
    · intro msg hmsg
      injection hmsg with hm
      subst hm
      refine Or.inr (Or.inr (Or.inl ⟨params.image, by simp, isPrefixOf_append3 _ _ _,
        by simp [urank]⟩))
    · intro hok
      simp at hok
  rcases h4 : cl.stopContainer containerID with e4 | u4
  · simp only [updateStandaloneContainer, h1, h2, h3, h4]
    refine ⟨⟨3, by decide, by simp [urank]⟩, ?_, ?_, ?_, ?_⟩
    · rintro ⟨cfg, hcfg, n, hmem⟩
      simp at hmem
    · intro img e hmem hpe
      simp at hmem
      subst hmem
      rw [h3] at hpe
      simp at hpe
    · intro msg hmsg
      injection hmsg with hm
      subst hm
      exact Or.inr (Or.inr (Or.inr (Or.inl ⟨isPrefixOf_append3 _ _ _, by simp [urank]⟩)))
    · intro hok
      simp at hok
  rcases h5 : cl.removeContainer containerID with e5 | u5
  · simp only [updateStandaloneContainer, h1, h2, h3, h4, h5]
    refine ⟨⟨4, by decide, by simp [urank]⟩, ?_, ?_, ?_, ?_⟩
    · rintro ⟨cfg, hcfg, n, hmem⟩
      simp at hmem
    · intro img e hmem hpe
      simp at hmem
      subst hmem
      rw [h3] at hpe
      simp at hpe
    · intro msg hmsg
      injection hmsg with hm
      subst hm
      exact Or.inr (Or.inr (Or.inr (Or.inr (Or.inl
        ⟨isPrefixOf_append3 _ _ _, by simp [urank]⟩))))
    · intro hok
      simp at hok
  rcases h6 : cl.createContainer (buildCreateArgs params).1 (buildCreateArgs params).2
      params.name with e6 | newContainerID
  · simp only [updateStandaloneContainer, h1, h2, h3, h4, h5, h6]
    refine ⟨⟨5, by decide, by simp [urank]⟩, fun _ => ⟨by simp, by simp⟩, ?_, ?_, ?_⟩
    · intro img e hmem hpe
      simp at hmem
      subst hmem
      rw [h3] at hpe
      simp at hpe
    · intro msg hmsg
      injection hmsg with hm
      subst hm
      refine Or.inr (Or.inr (Or.inr (Or.inr (Or.inr (Or.inl
        ⟨(buildCreateArgs params).1, (buildCreateArgs params).2, params.name, by simp,
          isPrefixOf_append3 _ _ _, by simp [urank]⟩)))))
    · intro hok
      simp at hok
  rcases h7 : cl.startContainer newContainerID with e7 | u7
  · simp only [updateStandaloneContainer, h1, h2, h3, h4, h5, h6, h7]
    refine ⟨⟨6, by decide, by simp [urank]⟩, fun _ => ⟨by simp, by simp⟩, ?_, ?_, ?_⟩
    · intro img e hmem hpe
      simp at hmem
      subst hmem
      rw [h3] at hpe
      simp at hpe
    · intro msg hmsg
      injection hmsg with hm
      subst hm
      refine Or.inr (Or.inr (Or.inr (Or.inr (Or.inr (Or.inr
        ⟨newContainerID, by simp, isPrefixOf_append3 _ _ _, by simp [urank]⟩)))))
    · intro hok
      simp at hok
  · simp only [updateStandaloneContainer, h1, h2, h3, h4, h5, h6, h7]
    refine ⟨⟨6, by decide, by simp [urank]⟩, fun _ => ⟨by simp, by simp⟩, ?_, ?_, ?_⟩
    · intro img e hmem hpe
      simp at hmem
      subst hmem
      rw [h3] at hpe
      simp at hpe
    · intro msg hmsg
      simp at hmsg
    · intro _
      simp [urank]

/-- Witness for claim C2 at a concrete run: when the pull of the
snapshot's image fails, the create step is never observed. -/
theorem c2_witness :
    (updateStandaloneContainer c2PullFailClient (str "w")).1.any isCreateEvent = false :=
  (c2_standalone_step_order c2PullFailClient (str "w")).2.2.1 (str "busybox:latest")
    (str "no such image") (by decide) rfl

/-- Claim C10: whenever a standalone update reaches the create step,
the configuration handed to `CreateContainer` is exactly the
extracted image, environment, command, entrypoint, labels, volume
binds, port bindings, restart policy and resource limits, with the
exposed ports recomputed from the port-binding keys, under the same
name — and the create arguments do not depend on the snapshot's
attached network names (the argument records carry no network field),
so the replacement is created without the original's network
attachments. -/
theorem c10_create_args (cl : UClient) (containerID : Str) :
    (∀ cfg hcfg n,
        UEvent.createC cfg hcfg n ∈ (updateStandaloneContainer cl containerID).1 →
        ∃ cj params,
          cl.inspectContainer containerID = .ok cj ∧
          extractContainerParams cj = .ok params ∧
          cfg = { image := params.image, env := params.env, cmd := params.cmd,
                  entrypoint := params.entrypoint, labels := params.labels,
                  exposedPorts := params.portBindings.map Prod.fst } ∧
          hcfg = { portBindings := params.portBindings, binds := params.binds,
                   restartPolicy := params.restartPolicy, resources := params.resources } ∧
          n = params.name) ∧
    (∀ params networks,
        buildCreateArgs { params with networks := networks } = buildCreateArgs params) := by
  constructor
  · intro cfg hcfg n hmem
    rcases h1 : cl.inspectContainer containerID with e1 | cj
    · simp only [updateStandaloneContainer, h1] at hmem
      simp at hmem
    rcases h2 : extractContainerParams cj with e2 | params
    · simp only [updateStandaloneContainer, h1, h2] at hmem
      simp at hmem
    rcases h3 : cl.pullImage params.image with e3 | u3
    · simp only [updateStandaloneContainer, h1, h2, h3] at hmem
      simp at hmem
    rcases h4 : cl.stopContainer containerID with e4 | u4
    · simp only [updateStandaloneContainer, h1, h2, h3, h4] at hmem
      simp at hmem
    rcases h5 : cl.removeContainer containerID with e5 | u5
    · simp only [updateStandaloneContainer, h1, h2, h3, h4, h5] at hmem
      simp at hmem
    rcases h6 : cl.createContainer (buildCreateArgs params).1 (buildCreateArgs params).2
        params.name with e6 | newContainerID
    · simp only [updateStandaloneContainer, h1, h2, h3, h4, h5, h6] at hmem
      simp only [List.mem_cons, List.mem_singleton, List.not_mem_nil, or_false] at hmem
      simp at hmem
      obtain ⟨hc, hh, hn⟩ := hmem
      exact ⟨cj, params, rfl, h2, hc, hh, hn⟩
    rcases h7 : cl.startContainer newContainerID with e7 | u7
    · simp only [updateStandaloneContainer, h1, h2, h3, h4, h5, h6, h7] at hmem
      simp at hmem
      obtain ⟨hc, hh, hn⟩ := hmem
      exact ⟨cj, params, rfl, h2, hc, hh, hn⟩
    · simp only [updateStandaloneContainer, h1, h2, h3, h4, h5, h6, h7] at hmem
      simp at hmem
      obtain ⟨hc, hh, hn⟩ := hmem
      exact ⟨cj, params, rfl, h2, hc, hh, hn⟩
  · intro params networks
    rfl

/-- Witness for claim C10 at a concrete successful update: the create
event carries exactly the arguments built from the extracted
snapshot. -/
theorem c10_witness :
    ∃ cj params,
      c10Client.inspectContainer (str "w") = .ok cj ∧
      extractContainerParams cj = .ok params ∧
      (buildCreateArgs c10Params).1 =
        { image := params.image
          env := params.env
          cmd := params.cmd
          entrypoint := params.entrypoint
          labels := params.labels
          exposedPorts := params.portBindings.map Prod.fst } ∧
      (buildCreateArgs c10Params).2 =
        { portBindings := params.portBindings
          binds := params.binds
          restartPolicy := params.restartPolicy
          resources := params.resources } ∧
      c10Params.name = params.name :=
  (c10_create_args c10Client (str "w")).1 (buildCreateArgs c10Params).1
    (buildCreateArgs c10Params).2 c10Params.name (by decide)

/-! Lemmas about the compose pull loop. -/

theorem pullProjectImages_ok (cl : CClient) (projectName : Str) :
    ∀ images : List Str,
      (pullProjectImages cl projectName images).2 = .ok () →
      (pullProjectImages cl projectName images).1 = images.map CEvent.pullI ∧
        ∀ img ∈ images, cl.pullImage img = .ok () := by
  intro images
  induction images with
  | nil => intro _; exact ⟨rfl, by simp⟩
  | cons img rest ih =>
    intro hok
    rcases hp : cl.pullImage img with e | u
    · simp only [pullProjectImages, hp] at hok
      simp at hok
    · cases u
      simp only [pullProjectImages, hp] at hok ⊢
      obtain ⟨h1, h2⟩ := ih hok
      refine ⟨by simp [h1], ?_⟩
      intro i hi
      rcases List.mem_cons.mp hi with h | h
      · rw [h]
        exact hp
      · exact h2 i h

theorem pullProjectImages_only_pulls (cl : CClient) (projectName : Str) :
    ∀ images : List Str,
      (pullProjectImages cl projectName images).1.any isDownEvent = false ∧
        (pullProjectImages cl projectName images).1.any isUpEvent = false := by
  intro images
  induction images with
  | nil => exact ⟨rfl, rfl⟩
  | cons img rest ih =>
    rcases hp : cl.pullImage img with e | u
    · simp [pullProjectImages, hp, isDownEvent, isUpEvent]
    · simp only [pullProjectImages, hp]
      simp [isDownEvent, isUpEvent, ih.1, ih.2]

/-- Claim C3: the compose update fails immediately — with no pull, no
external command, no call at all — when the working directory is
empty; when the tear-down command is observed, every member image was
pulled first (the trace starts with all the pulls) and every pull
succeeded, so a pull failure aborts before any destructive step; and
the bring-up command is only ever observed after the tear-down
command exited successfully. -/
theorem c3_compose_preconditions (cl : CClient) (projectName workDir : Str)
    (images : List Str) :
    (workDir = [] →
        (updateComposeProject cl projectName workDir images).1 = [] ∧
        (updateComposeProject cl projectName workDir images).2 =
          .error (str "working directory is required for compose project " ++ projectName)) ∧
    ((updateComposeProject cl projectName workDir images).1.any isDownEvent = true →
        (∃ rest, (updateComposeProject cl projectName workDir images).1 =
            images.map CEvent.pullI ++ rest) ∧
        ∀ img ∈ images, cl.pullImage img = .ok ()) ∧
    ((updateComposeProject cl projectName workDir images).1.any isUpEvent = true →
        cl.composeDown workDir = .ok () ∧
        (updateComposeProject cl projectName workDir images).1.any isDownEvent = true) := by
  by_cases hw : workDir = []
  · refine ⟨fun _ => ?_, ?_, ?_⟩
    · simp [updateComposeProject, hw]
    · intro h
      simp [updateComposeProject, hw] at h
    · intro h
      simp [updateComposeProject, hw] at h
  · rcases hp : pullProjectImages cl projectName images with ⟨tr, res⟩
    have hno := pullProjectImages_only_pulls cl projectName images
    rw [hp] at hno
    have hnoD : tr.any isDownEvent = false := hno.1
    have hnoU : tr.any isUpEvent = false := hno.2
    cases res with
    | error e =>
      refine ⟨fun hw' => absurd hw' hw, ?_, ?_⟩
      · intro h
        simp only [updateComposeProject, if_neg hw, hp] at h
        simp [hnoD] at h
      · intro h
        simp only [updateComposeProject, if_neg hw, hp] at h
        simp [hnoU] at h
    | ok u =>
      cases u
      have hok := pullProjectImages_ok cl projectName images
      rw [hp] at hok
      obtain ⟨h1, h2⟩ := hok rfl
      have h1' : tr = images.map CEvent.pullI := h1
      rcases hd : cl.composeDown workDir with ed | ud
      · refine ⟨fun hw' => absurd hw' hw, ?_, ?_⟩
        · intro _
          refine ⟨⟨[.downCmd workDir], ?_⟩, h2⟩
          simp only [updateComposeProject, if_neg hw, hp, hd]
          rw [h1']
        · intro h
          simp only [updateComposeProject, if_neg hw, hp, hd] at h
          rw [List.any_append] at h
          simp [isUpEvent, hnoU] at h
      · cases ud
        rcases hu : cl.composeUp workDir with eu | uu
        · refine ⟨fun hw' => absurd hw' hw, ?_, ?_⟩
          · intro _
            refine ⟨⟨[.downCmd workDir, .upCmd workDir], ?_⟩, h2⟩
            simp only [updateComposeProject, if_neg hw, hp, hd, hu]
            rw [h1']
          · intro _
            refine ⟨rfl, ?_⟩
            simp only [updateComposeProject, if_neg hw, hp, hd, hu]
            simp [isDownEvent]
        · refine ⟨fun hw' => absurd hw' hw, ?_, ?_⟩
          · intro _
            refine ⟨⟨[.downCmd workDir, .upCmd workDir], ?_⟩, h2⟩
            simp only [updateComposeProject, if_neg hw, hp, hd, hu]
            rw [h1']
          · intro _
            refine ⟨rfl, ?_⟩
            simp only [updateComposeProject, if_neg hw, hp, hd, hu]
            simp [isDownEvent]

/-- Witness for claim C3 at concrete runs: an empty working directory
fails with no call at all, and a successful run's trace starts with
the member pulls, which all succeeded. -/
theorem c3_witness :
    ((updateComposeProject c3OkClient (str "p") [] [str "img:1"]).1 = [] ∧
      (updateComposeProject c3OkClient (str "p") [] [str "img:1"]).2 =
        .error (str "working directory is required for compose project " ++ str "p")) ∧
    ((∃ rest, (updateComposeProject c3OkClient (str "p") (str "/srv") [str "img:1"]).1 =
        [str "img:1"].map CEvent.pullI ++ rest) ∧
      ∀ img ∈ [str "img:1"], c3OkClient.pullImage img = .ok ()) := by
  constructor
  · exact (c3_compose_preconditions c3OkClient (str "p") [] [str "img:1"]).1 rfl
  · exact (c3_compose_preconditions c3OkClient (str "p") (str "/srv") [str "img:1"]).2.1
      (by decide)

/-- Claim C5: `ExtractContainerParams` errs exactly when the primary
configuration or the host configuration is absent from the inspection
record (and then returns no snapshot at all); otherwise the snapshot
has the leading separator stripped from the name and absent port
bindings, binds or network names become empty collections. -/
theorem c5_extract_iff_missing_config (cj : ContainerJSON) :
    ((∃ e, extractContainerParams cj = .error e) ↔
      (cj.config = none ∨ cj.hostConfig = none)) ∧
    (∀ ps, extractContainerParams cj = .ok ps →
      ps.name = trimPrefixOf (str "/") cj.name ∧
      (∀ hc, cj.hostConfig = some hc →
        (hc.portBindings = none → ps.portBindings = []) ∧
        (hc.binds = none → ps.binds = [])) ∧
      (cj.networkSettings = none → ps.networks = []) ∧
      (∀ ns, cj.networkSettings = some ns → ns.networks = none → ps.networks = [])) := by
  rcases cj with ⟨name, cfg, hc, ns⟩
  cases cfg with
  | none =>
    constructor
    · simp [extractContainerParams]
    · intro ps hps
      simp [extractContainerParams] at hps
  | some config =>
    cases hc with
    | none =>
      constructor
      · simp [extractContainerParams]
      · intro ps hps
        simp [extractContainerParams] at hps
    | some hostConfig =>
      constructor
      · simp [extractContainerParams]
      · intro ps hps
        simp only [extractContainerParams, Except.ok.injEq] at hps
        subst hps
        refine ⟨rfl, ?_, ?_, ?_⟩
        · intro hc' hhc
          cases hhc
          constructor
          · intro hpb
            simp [hpb]
          · intro hb
            simp [hb]
        · intro hns
          cases hns
          rfl
        · intro ns' hns hnn
          cases hns
          simp [hnn]

/-- Witness for claim C5 at concrete records: a record missing its
host configuration errs, and a full record with nil port bindings
yields an empty binding map and the stripped name. -/
theorem c5_witness :
    ((∃ e, extractContainerParams
        { name := str "/a", config := some ⟨str "i", [], [], [], none, none⟩,
          hostConfig := none, networkSettings := none } = .error e) ∧
      ∀ ps, extractContainerParams
          { name := str "/web",
            config := some ⟨str "i", [], [], [], none, none⟩,
            hostConfig := some ⟨none, none, ⟨str "always", 0⟩, ⟨0, 0⟩⟩,
            networkSettings := none } = .ok ps →
        ps.name = str "web" ∧ ps.portBindings = [] ∧ ps.networks = []) := by
  constructor
  · exact (c5_extract_iff_missing_config
      { name := str "/a", config := some ⟨str "i", [], [], [], none, none⟩,
        hostConfig := none, networkSettings := none }).1.mpr (Or.inr rfl)
  · intro ps hps
    have h := (c5_extract_iff_missing_config
      { name := str "/web",
        config := some ⟨str "i", [], [], [], none, none⟩,
        hostConfig := some ⟨none, none, ⟨str "always", 0⟩, ⟨0, 0⟩⟩,
        networkSettings := none }).2 ps hps
    refine ⟨?_, ?_, ?_⟩
    · rw [h.1]
      decide
    · exact (h.2.1 _ rfl).1 rfl
    · exact h.2.2.1 rfl

/-- Witness for claim C4 at a concrete cycle: with a client whose
pulls always fail, the cycle still reports success, a pull failure
turns exactly into a finished task with the flag false, the groups
keep their identifying fields, and a concrete finished task list is
all done. -/
theorem c4_witness :
    (checkUpdates c4FailClient [] c4Groups).isOk = true ∧
      (taskStep c4FailClient initShared ⟨nginxInfo (str "a"), .toPull⟩).2 =
        ⟨{ nginxInfo (str "a") with hasUpdate := false }, .done⟩ ∧
      (checkUpdatesRun c4FailClient [] c4Groups).2.map groupSkel = c4Groups.map groupSkel ∧
      ((finishTasks c4FailClient initShared
          [⟨nginxInfo (str "a"), .ready⟩]).2.headD ⟨nginxInfo (str "a"), .ready⟩).phase =
        .done := by
  have h := c4_soft_failures c4FailClient [] c4Groups
  refine ⟨h.1, (h.2.2.2.1 initShared (nginxInfo (str "a")) (by decide)).1, h.2.1, ?_⟩
  exact h.2.2.1 initShared [⟨nginxInfo (str "a"), .ready⟩] _ (by decide)

/-! Lemmas for the grouping partition. -/

theorem insertComposeContainer_members (projectName : Str) (info : ContainerInfo) (wd : Str) :
    ∀ m : List (Str × ContainerGroup),
      List.Perm
        ((insertComposeContainer projectName info wd m).flatMap fun p => p.2.containers)
        (info :: m.flatMap fun p => p.2.containers) := by
  intro m
  induction m with
  | nil => simp [insertComposeContainer]
  | cons q rest ih =>
    rcases q with ⟨k, g⟩
    by_cases hk : k = projectName
    · simp only [insertComposeContainer, if_pos hk, List.flatMap_cons]
      rw [List.append_assoc]
      exact List.perm_middle
    · simp only [insertComposeContainer, if_neg hk, List.flatMap_cons]
      exact (ih.append_left g.containers).trans List.perm_middle

theorem processContainer_step_members
    (acc : List (Str × ContainerGroup) × List ContainerGroup) (c : DContainer) :
    List.Perm (accMembers (processContainer acc c)) (toContainerInfo c :: accMembers acc) := by
  rcases acc with ⟨compose, standalone⟩
  by_cases h : (isComposeProject c).1 = true
  · simp only [processContainer, if_pos h, accMembers]
    exact (insertComposeContainer_members _ _ _ compose).append_right _
  · simp only [processContainer, if_neg h, accMembers, List.flatMap_append]
    rw [← List.append_assoc]
    simp only [List.flatMap_cons, List.flatMap_nil, List.append_nil]
    exact List.perm_append_singleton _ _

theorem foldl_processContainer_members :
    ∀ (cs : List DContainer) (acc : List (Str × ContainerGroup) × List ContainerGroup),
      List.Perm (accMembers (cs.foldl processContainer acc))
        (accMembers acc ++ cs.map toContainerInfo) := by
  intro cs
  induction cs with
  | nil => intro acc; simp
  | cons c rest ih =>
    intro acc
    rw [List.foldl_cons]
    refine (ih (processContainer acc c)).trans ?_
    refine ((processContainer_step_members acc c).append_right _).trans ?_
    rw [List.map_cons]
    exact List.perm_middle.symm

theorem insertComposeContainer_ok {projectName : Str} {info : ContainerInfo} (wd : Str)
    (hinfo : composeProjectOf info.labels = (true, projectName)) :
    ∀ m, composeAccOk m → composeAccOk (insertComposeContainer projectName info wd m) := by
  intro m
  induction m with
  | nil =>
    intro _ p hp
    simp only [insertComposeContainer, List.mem_singleton] at hp
    subst hp
    refine ⟨rfl, rfl, by simp, ?_⟩
    intro i hi
    simp only [List.mem_singleton] at hi
    subst hi
    exact hinfo
  | cons q rest ih =>
    intro hm
    rcases q with ⟨k, g⟩
    have hq := hm (k, g) (List.mem_cons_self _ _)
    have hrest : composeAccOk rest := fun p hp => hm p (List.mem_cons_of_mem _ hp)
    by_cases hk : k = projectName
    · intro p hp
      simp only [insertComposeContainer, if_pos hk] at hp
      rcases List.mem_cons.mp hp with h | h
      · subst h
        refine ⟨hq.1, hq.2.1, by simp, ?_⟩
        intro i hi
        rcases List.mem_append.mp hi with h' | h'
        · exact hq.2.2.2 i h'
        · simp only [List.mem_singleton] at h'
          subst h'
          rw [hk]
          exact hinfo
      · exact hrest p h
    · intro p hp
      simp only [insertComposeContainer, if_neg hk] at hp
      rcases List.mem_cons.mp hp with h | h
      · subst h
        exact hq
      · exact ih hrest p h

theorem processContainer_step_ok
    (acc : List (Str × ContainerGroup) × List ContainerGroup) (c : DContainer)
    (h1 : composeAccOk acc.1) (h2 : standaloneAccOk acc.2) :
    composeAccOk (processContainer acc c).1 ∧ standaloneAccOk (processContainer acc c).2 := by
  by_cases h : (isComposeProject c).1 = true
  · constructor
    · simp only [processContainer, if_pos h]
      have hpair : composeProjectOf (toContainerInfo c).labels =
          (true, (isComposeProject c).2) := by
        have heta : isComposeProject c = ((isComposeProject c).1, (isComposeProject c).2) := rfl
        rw [h] at heta
        exact heta
      exact insertComposeContainer_ok _ hpair acc.1 h1
    · simp only [processContainer, if_pos h]
      exact h2
  · constructor
    · simp only [processContainer, if_neg h]
      exact h1
    · simp only [processContainer, if_neg h]
      intro g hg
      rcases List.mem_append.mp hg with hx | hx
      · exact h2 g hx
      · simp only [List.mem_singleton] at hx
        subst hx
        refine ⟨rfl, toContainerInfo c, rfl, rfl, ?_⟩
        cases hb : (isComposeProject c).1 with
        | true => exact absurd hb h
        | false => exact hb

theorem foldl_processContainer_ok :
    ∀ (cs : List DContainer) (acc : List (Str × ContainerGroup) × List ContainerGroup),
      composeAccOk acc.1 → standaloneAccOk acc.2 →
      composeAccOk (cs.foldl processContainer acc).1 ∧
        standaloneAccOk (cs.foldl processContainer acc).2 := by
  intro cs
  induction cs with
  | nil => intro acc h1 h2; exact ⟨h1, h2⟩
  | cons c rest ih =>
    intro acc h1 h2
    rw [List.foldl_cons]
    obtain ⟨h1', h2'⟩ := processContainer_step_ok acc c h1 h2
    exact ih _ h1' h2'

/-- Claim C6: the groups produced by `GetContainerGroups` partition
the input — their members, taken together, are a permutation of the
input instances, so each appears exactly once; an instance whose
`com.docker.compose.project` label is present and non-empty sits in
the compose group keyed by that label value (every member of a
compose group carries that group's key as its label), and an instance
whose label is absent or empty forms its own standalone unit keyed by
its identifier with exactly one member. -/
theorem c6_grouping_partition (containers : List DContainer) :
    List.Perm (groupMembers (getContainerGroups containers))
      (containers.map toContainerInfo) ∧
    ∀ g ∈ getContainerGroups containers,
      (g.type = .standalone →
        ∃ info, g.containers = [info] ∧ g.id = info.id ∧
          (composeProjectOf info.labels).1 = false) ∧
      (g.type = .compose →
        g.containers ≠ [] ∧
          ∀ info ∈ g.containers, composeProjectOf info.labels = (true, g.id)) := by
  constructor
  · unfold getContainerGroups groupMembers
    rw [List.flatMap_append, List.flatMap_map]
    show List.Perm
      (((containers.foldl processContainer ([], [])).1.flatMap fun p => p.2.containers) ++
        (containers.foldl processContainer ([], [])).2.flatMap fun g => g.containers)
      (containers.map toContainerInfo)
    have h := foldl_processContainer_members containers ([], [])
    simp only [accMembers, List.flatMap_nil, List.nil_append] at h
    exact h
  · intro g hg
    have hbase1 : composeAccOk ([] : List (Str × ContainerGroup)) := by
      intro p hp
      simp at hp
    have hbase2 : standaloneAccOk ([] : List ContainerGroup) := by
      intro g' hg'
      simp at hg'
    have hacc := foldl_processContainer_ok containers ([], []) hbase1 hbase2
    unfold getContainerGroups at hg
    rcases List.mem_append.mp hg with hx | hx
    · rcases List.mem_map.mp hx with ⟨p, hp, rfl⟩
      have hq := hacc.1 p hp
      constructor
      · intro ht
        have ht' : p.2.type = GroupType.standalone := ht
        rw [hq.2.1] at ht'
        simp at ht'
      · intro _
        refine ⟨hq.2.2.1, ?_⟩
        intro info hi
        have hlab := hq.2.2.2 info hi
        show composeProjectOf info.labels = (true, p.2.id)
        rw [hq.1]
        exact hlab
    · have hq := hacc.2 g hx
      constructor
      · intro _
        exact hq.2
      · intro ht
        rw [hq.1] at ht
        simp at ht

/-- Witness for claim C6 at a concrete input: the unlabelled container
forms its own standalone unit keyed by its identifier with exactly one
member. -/
theorem c6_witness :
    ∃ info, c6Standalone.containers = [info] ∧ c6Standalone.id = info.id ∧
      (composeProjectOf info.labels).1 = false :=
  ((c6_grouping_partition c6Containers).2 c6Standalone (by decide)).1 rfl

end BleedingEdge
